import Mathlib

/-!
Verification development for the Dashboard portfolio backend.

Shallow embedding of the two core components described in the spec:
the market-data gateway (`backend/app/utils/yfinance_helper.py`) and the
valuation engine (`backend/app/services/portfolioPerformance.py`,
`backend/app/routes/transactions.py`).

Modelling conventions:
* money, prices and wall-clock time are rationals (`ℚ`);
* share counts are integers (`ℤ`), Python `int`;
* the external provider (`yfinance`) is an oracle parameter; a raised
  Python exception is `Except.error` carrying `str(e)`;
* `random.uniform` draws are oracle parameters as well;
* mutable module-level state (`_last_api_call_time`, `_stock_info_cache`)
  is threaded explicitly through `GwState`; every outbound provider call
  appends its wall-clock time to `GwState.calls`;
* Python string operations used by the code (`str.replace`, `int(...)`,
  `'429' in str(e)`, `str.upper`) are re-implemented structurally on
  character lists so that they compute by kernel reduction.
-/

/-- Python truthiness of an optional number: `None`, `0` and `0.0` are falsy. -/
def pyTruthy : Option ℚ → Bool
  | none => false
  | some v => v != 0

/-- Python `a or b` on optional numbers: the first truthy operand, else `b`. -/
def pyOr (a b : Option ℚ) : Option ℚ :=
  if pyTruthy a then a else b

/-- Is `pat` a prefix of `l`? (structural helper for the Python string ops). -/
def isPrefixL : List Char → List Char → Bool
  | [], _ => true
  | _ :: _, [] => false
  | p :: ps, c :: cs => p == c && isPrefixL ps cs

/-- Fuel-driven worker for `pyReplace`; the fuel is the input length, enough
because every step consumes at least one character. -/
def replaceAux (pat rep : List Char) : Nat → List Char → List Char
  | 0, s => s
  | _ + 1, [] => []
  | fuel + 1, c :: t =>
    if isPrefixL pat (c :: t) then
      rep ++ replaceAux pat rep fuel (List.drop pat.length (c :: t))
    else
      c :: replaceAux pat rep fuel t

/-- Python `s.replace(pat, rep)`: replace every non-overlapping occurrence,
left to right (for non-empty `pat`, the only use here). -/
def pyReplace (s pat rep : String) : String :=
  ⟨replaceAux pat.data rep.data s.data.length s.data⟩

/-- Digit string to a natural number, `none` if empty or non-digit. -/
def digitsToNat (l : List Char) : Option ℕ :=
  if l ≠ [] ∧ l.all Char.isDigit then
    some (l.foldl (fun a c => a * 10 + (c.toNat - 48)) 0)
  else none

/-- Python `int(s)` on the strings appearing here: optional sign then digits;
anything else raises `ValueError`, modelled as `none`. -/
def pyInt (s : String) : Option ℤ :=
  match s.data with
  | '-' :: rest => (digitsToNat rest).map (fun n => -(n : ℤ))
  | '+' :: rest => (digitsToNat rest).map (fun n => (n : ℤ))
  | l => (digitsToNat l).map (fun n => (n : ℤ))

/-- Does `pat` occur as a contiguous subsequence of `l`? -/
def containsSeq (pat : List Char) : List Char → Bool
  | [] => isPrefixL pat []
  | c :: t => isPrefixL pat (c :: t) || containsSeq pat t

/-- Python `'429' in str(e)`. -/
def contains429 (s : String) : Bool :=
  containsSeq ['4', '2', '9'] s.data

/-- Uppercase a single ASCII character (Python `str.upper` on the symbols here). -/
def upChar (c : Char) : Char :=
  if 'a' ≤ c ∧ c ≤ 'z' then Char.ofNat (c.toNat - 32) else c

/-- Python `s.upper()` for ASCII ticker symbols. -/
def pyUpper (s : String) : String :=
  ⟨s.data.map upChar⟩

/-- Round-half-to-even to an integer (how Python `round` breaks ties). -/
def roundHalfEven (q : ℚ) : ℤ :=
  let f := ⌊q⌋
  let frac := q - f
  if frac < 1 / 2 then f
  else if 1 / 2 < frac then f + 1
  else if f % 2 = 0 then f else f + 1

/-- Python `round(x, 2)`, modelled as exact half-even rounding on rationals. -/
def roundTo2 (q : ℚ) : ℚ :=
  (roundHalfEven (q * 100) : ℚ) / 100

/-- Lookup in an association list keyed by strings (Python `dict.get`). -/
def assocFind {α : Type} : List (String × α) → String → Option α
  | [], _ => none
  | e :: t, k => if e.1 = k then some e.2 else assocFind t k

/-- Update-or-append in an association list (Python `dict[k] = v`). -/
def assocSet {α : Type} : List (String × α) → String → α → List (String × α)
  | [], k, v => [(k, v)]
  | e :: t, k, v => if e.1 = k then (k, v) :: t else e :: assocSet t k v

/-- Add `v` to the entry at `k`, inserting it at the end if absent
(Python `d[k] = d.get(k, 0) + v`, preserving insertion order). -/
def assocAdd : List (String × ℤ) → String → ℤ → List (String × ℤ)
  | [], k, v => [(k, v)]
  | e :: t, k, v => if e.1 = k then (e.1, e.2 + v) :: t else e :: assocAdd t k v

/-- Python extended slice `xs[::k]` for `k ≥ 1`: indices `0, k, 2k, ...`. -/
def strideSlice {α : Type} (xs : List α) (k : Nat) : List α :=
  match xs with
  | [] => []
  | x :: t => x :: strideSlice (t.drop (k - 1)) k
termination_by xs.length
decreasing_by simp [List.length_drop]; omega

/-- Boolean test whether an `Except` is the error case. -/
def exceptIsError {α : Type} : Except String α → Bool
  | .error _ => true
  | .ok _ => false

/-! ### Market Data Gateway state (`yfinance_helper.py`) -/

/-- Module constant `MIN_SECONDS_BETWEEN_CALLS = 3`. -/
def MIN_SECONDS_BETWEEN_CALLS : ℚ := 3

/-- Module constant `CACHE_TIMEOUT_SECONDS = 300`. -/
def CACHE_TIMEOUT_SECONDS : ℚ := 300

/-- Module constant `MAX_RETRIES = 3`. -/
def MAX_RETRIES : Nat := 3

/-- Module constant `BASE_DELAY = 5`. -/
def BASE_DELAY : ℚ := 5

/-- A successfully returned quote (`fetch_stock_info` result dict). -/
structure Quote where
  symbol : String
  name : String
  current_price : ℚ
  previous_close : Option ℚ
  change_percent : ℚ
  currency : String
  market_cap : ℚ
  deriving DecidableEq

/-- Entry of `_stock_info_cache`: the data with its store timestamp. -/
structure CacheEntry where
  data : Quote
  timestamp : ℚ
  deriving DecidableEq

/-- Process-wide mutable gateway state: current wall-clock time, the shared
`_last_api_call_time`, the quote cache, and the (observational) log of times
at which outbound provider calls were issued. -/
structure GwState where
  now : ℚ
  lastApiCall : ℚ
  cache : List (String × CacheEntry)
  calls : List ℚ
  deriving DecidableEq

/-- `enforce_global_delay`: sleep until 3 seconds have elapsed since
`_last_api_call_time`, then set `_last_api_call_time` to the current time. -/
def enforce_global_delay (st : GwState) : GwState :=
  let time_since_last_call := st.now - st.lastApiCall
  let now2 :=
    if time_since_last_call < MIN_SECONDS_BETWEEN_CALLS then
      st.now + (MIN_SECONDS_BETWEEN_CALLS - time_since_last_call)
    else st.now
  { st with now := now2, lastApiCall := now2 }

/-- Result of a call wrapped by `retry_with_backoff`: the value or the
escaping exception, the number of attempts made, and the backoff delays slept. -/
structure RetryOutcome (α : Type) where
  result : Except String (Option α)
  attempts : Nat
  delays : List ℚ

/-- Worker for `retry_with_backoff`: `fuel = MAX_RETRIES - retry_count`,
`att` is the number of calls made so far.  Mirrors the `while` loop: a
non-429 error re-raises at once; a 429 increments the count, re-raises when
it reaches `MAX_RETRIES`, otherwise sleeps `BASE_DELAY * 2^retry_count`
plus jitter and tries again.  Falling out of the loop returns `None`. -/
def retryAux {α : Type} (f : Nat → Except String α) (jit : Nat → ℚ) :
    Nat → Nat → Nat → RetryOutcome α
  | 0, _, att => ⟨.ok none, att, []⟩
  | fuel + 1, rc, att =>
    match f att with
    | .ok a => ⟨.ok (some a), att + 1, []⟩
    | .error e =>
      if contains429 e then
        if rc + 1 = MAX_RETRIES then ⟨.error e, att + 1, []⟩
        else
          let d := BASE_DELAY * 2 ^ (rc + 1) + jit att
          let r := retryAux f jit fuel (rc + 1) (att + 1)
          ⟨r.result, r.attempts, d :: r.delays⟩
      else ⟨.error e, att + 1, []⟩

/-- The `retry_with_backoff` decorator applied to an effectful call `f`
(one `Except` result per attempt index; `jit` are the `random.uniform(1, 3)`
draws). -/
def retry_with_backoff {α : Type} (f : Nat → Except String α) (jit : Nat → ℚ) :
    RetryOutcome α :=
  retryAux f jit MAX_RETRIES 0 0

/-- The relevant fields of `yf.Ticker(symbol).info`. -/
structure TickerInfo where
  currentPrice : Option ℚ
  regularMarketPrice : Option ℚ
  previousClose : Option ℚ
  longName : Option String
  currency : Option String
  marketCap : Option ℚ
  deriving DecidableEq

/-- The cache check at the top of `fetch_stock_info`: a hit needs an entry
younger than `CACHE_TIMEOUT_SECONDS`. -/
def cache_lookup (st : GwState) (symbol : String) : Option Quote :=
  match assocFind st.cache symbol with
  | some entry =>
    if st.now - entry.timestamp < CACHE_TIMEOUT_SECONDS then some entry.data
    else none
  | none => none

/-- Body of `fetch_stock_info(symbol)` (the function under the decorator;
its own `try/except` catches every provider exception and returns `None`).
`provider` is the `yf.Ticker(...).info` oracle; `sleepJ` is the
`random.uniform(0.5, 1.5)` draw. -/
def fetch_stock_info (provider : String → Except String TickerInfo)
    (sleepJ : ℚ) (symbol : String) (st : GwState) : Option Quote × GwState :=
  match cache_lookup st symbol with
  | some q => (some q, st)
  | none =>
    let st1 := enforce_global_delay st
    let st2 := { st1 with now := st1.now + sleepJ }
    let st3 := { st2 with calls := st2.calls ++ [st2.now] }
    match provider symbol with
    | .error _ => (none, st3)
    | .ok info =>
      let current_price :=
        pyOr (pyOr info.currentPrice info.regularMarketPrice) info.previousClose
      let prev_close := info.previousClose
      let change_percent :=
        if pyTruthy current_price && pyTruthy prev_close then
          ((current_price.getD 0 - prev_close.getD 0) / prev_close.getD 0) * 100
        else 0
      if pyTruthy current_price = false then (none, st3)
      else
        let q : Quote :=
          { symbol := pyUpper symbol
            name := info.longName.getD symbol
            current_price := current_price.getD 0
            previous_close := prev_close
            change_percent := roundTo2 change_percent
            currency := info.currency.getD ("USD")
            market_cap := info.marketCap.getD 0 }
        let st4 := { st3 with cache := assocSet st3.cache symbol ⟨q, st3.now⟩ }
        (some q, st4)

/-- `fetch_stock_info` as exported: the body wrapped by `retry_with_backoff`
(`sleepJ` is per-attempt). -/
def fetch_stock_info_wrapped (provider : String → Except String TickerInfo)
    (sleepJ : Nat → ℚ) (jit : Nat → ℚ) (symbol : String) (st : GwState) :
    RetryOutcome (Option Quote × GwState) :=
  retry_with_backoff (fun att => .ok (fetch_stock_info provider (sleepJ att) symbol st)) jit

/-! ### Historical data with fallbacks (`yfinance_helper.py`) -/

/-- Observable shape of a `yf.download` result frame: pandas emptiness, the
presence of a `Close` column level, and the per-symbol `Close` series. -/
structure DlFrame where
  isEmpty : Bool
  hasClose : Bool
  close : List (String × List ℚ)
  deriving DecidableEq

/-- A download oracle: `yf.download(symbols, period, ...)`, either a frame or
a raised exception. -/
def DlOracle : Type := List String → String → Except String DlFrame

/-- Result of the fallback chain: strategies 1-2 return the raw batch frame,
strategies 3-5 return an assembled symbol-to-series table. -/
inductive HistData where
  | frame (f : DlFrame)
  | table (t : List (String × List ℚ))
  deriving DecidableEq

/-- `try_alternative_yahoo_endpoint(symbols, period)`: substitute a longer
period (1d to 5d, 2d to 1wk, else 1mo) and retry the batch download; any
exception or empty frame yields `None`.  The outbound call is recorded at the
current time: this helper neither sleeps nor consults the global delay. -/
def try_alternative_yahoo_endpoint (dl : DlOracle) (symbols : List String)
    (period : String) (st : GwState) : Option DlFrame × GwState :=
  let alt_period :=
    if period = "1d" then "5d" else if period = "2d" then "1wk" else "1mo"
  let st1 := { st with calls := st.calls ++ [st.now] }
  match dl symbols alt_period with
  | .error _ => (none, st1)
  | .ok data => if data.isEmpty = false then (some data, st1) else (none, st1)

/-- Worker for `try_individual_downloads`: one symbol at a time, sleeping
`random.uniform(1, 2)` (the `jit` oracle) before each call, keeping the
symbols whose `Close` series is non-empty and ignoring individual failures. -/
def try_individual_aux (dl : DlOracle) (jit : Nat → ℚ) (period : String) :
    List String → Nat → List (String × List ℚ) → GwState →
    List (String × List ℚ) × GwState
  | [], _, acc, st => (acc, st)
  | s :: rest, i, acc, st =>
    let st1 := { st with now := st.now + jit i }
    let st2 := { st1 with calls := st1.calls ++ [st1.now] }
    let acc2 :=
      match dl [s] period with
      | .error _ => acc
      | .ok data =>
        if data.isEmpty = false ∧ data.hasClose = true then
          match assocFind data.close s with
          | some close_data =>
            if close_data ≠ [] then acc ++ [(s, close_data)] else acc
          | none => acc
        else acc
    try_individual_aux dl jit period rest (i + 1) acc2 st2

/-- `try_individual_downloads(symbols, period)`. -/
def try_individual_downloads (dl : DlOracle) (jit : Nat → ℚ)
    (symbols : List String) (period : String) (st : GwState) :
    List (String × List ℚ) × GwState :=
  try_individual_aux dl jit period symbols 0 [] st

/-- The hard-coded `base_prices` table of `generate_mock_data`. -/
def base_prices : List (String × ℚ) :=
  [("AAPL", 150), ("MSFT", 280), ("GOOGL", 120), ("AMZN", 90), ("TSLA", 200),
   ("NVDA", 400), ("META", 250), ("NFLX", 300), ("CRM", 180), ("ADBE", 350),
   ("PYPL", 60), ("INTC", 30), ("AMD", 80), ("ORCL", 70), ("IBM", 120)]

/-- The `random` draws used by `generate_mock_data`: `base s` is the
`uniform(50, 200)` fallback base price, `var s` the bounded variation
(`uniform(-0.05, 0.05)` or `uniform(-0.15, 0.15)`), and `series s i` the
per-point `uniform(-0.1, 0.1)` draw for longer periods. -/
structure MockRand where
  base : String → ℚ
  var : String → ℚ
  series : String → Nat → ℚ

/-- The `num_points` computation of `generate_mock_data` for periods other
than `1d`/`2d`: `int(period.replace('d','').replace('wk','7').replace('mo','30'))`,
`none` when Python `int` raises `ValueError`. -/
def mock_num_points (period : String) : Option ℤ :=
  pyInt (pyReplace (pyReplace (pyReplace period ("d") ("")) ("wk") ("7")) ("mo") ("30"))

/-- The price series `generate_mock_data` builds for one symbol. -/
def mock_prices (rand : MockRand) (s : String) (period : String) : Except String (List ℚ) :=
  let base_price :=
    match assocFind base_prices s with
    | some p => p
    | none => rand.base s
  let current_price := base_price * (1 + rand.var s)
  if period = "1d" then
    .ok [current_price * (99 / 100), current_price]
  else if period = "2d" then
    .ok [current_price * (98 / 100), current_price * (99 / 100), current_price]
  else
    match mock_num_points period with
    | none => .error ("ValueError: invalid literal for int()")
    | some n =>
      let num_points := min 10 n
      .ok ((List.range num_points.toNat).map
            (fun i => current_price * (1 + rand.series s i)) ++ [current_price])

/-- Worker for `generate_mock_data`: one column per symbol, in order; a
`ValueError` from the `num_points` computation escapes. -/
def generate_mock_aux (rand : MockRand) (period : String) :
    List String → List (String × List ℚ) → Except String (List (String × List ℚ))
  | [], acc => .ok acc
  | s :: rest, acc =>
    match mock_prices rand s period with
    | .error e => .error e
    | .ok prices => generate_mock_aux rand period rest (acc ++ [(s, prices)])

/-- `generate_mock_data(symbols, period)`: deterministic-looking synthetic
data, the final fallback.  Faithfully includes the crash: for a period the
digit-extraction cannot parse (for example `1y`), Python `int` raises. -/
def generate_mock_data (rand : MockRand) (symbols : List String)
    (period : String) : Except String (List (String × List ℚ)) :=
  generate_mock_aux rand period symbols []

/-- Is the assembled table empty in the pandas sense (`DataFrame().empty`)? -/
def tableIsEmpty (t : List (String × List ℚ)) : Bool :=
  t.isEmpty

/-- `fetch_historical_data_with_fallbacks(symbols, period)`: enforce the
global delay once, then try in order batch download, alternative period,
per-symbol downloads, per-symbol downloads with a `1mo` period, and finally
synthetic data.  `jit3`/`jit4` are the sleep draws of the two
`try_individual_downloads` invocations.  Strategies 1-4 catch their own
exceptions; strategy 5 does not, so its `ValueError` escapes to the caller. -/
def fetch_historical_data_with_fallbacks (dl : DlOracle) (jit3 jit4 : Nat → ℚ)
    (rand : MockRand) (symbols : List String) (period : String) (st : GwState) :
    Except String HistData × GwState :=
  let st0 := enforce_global_delay st
  let st1 := { st0 with calls := st0.calls ++ [st0.now] }
  let step2 := fun (stA : GwState) =>
    let (alt, stB) := try_alternative_yahoo_endpoint dl symbols period stA
    match alt with
    | some data => (Except.ok (HistData.frame data), stB)
    | none =>
      let (t3, stC) := try_individual_downloads dl jit3 symbols period stB
      if tableIsEmpty t3 = false then (Except.ok (HistData.table t3), stC)
      else
        let (t4, stD) :=
          if period ≠ "1mo" then try_individual_downloads dl jit4 symbols ("1mo") stC
          else ([], stC)
        if tableIsEmpty t4 = false then (Except.ok (HistData.table t4), stD)
        else
          match generate_mock_data rand symbols period with
          | .error e => (Except.error e, stD)
          | .ok t5 => (Except.ok (HistData.table t5), stD)
  match dl symbols period with
  | .ok data =>
    if data.isEmpty = false ∧ data.hasClose = true then
      (Except.ok (HistData.frame data), st1)
    else step2 st1
  | .error _ => step2 st1

/-- `fetch_historical_data(symbols, period='1y')`: a thin wrapper. -/
def fetch_historical_data (dl : DlOracle) (jit3 jit4 : Nat → ℚ)
    (rand : MockRand) (symbols : List String) (period : String) (st : GwState) :
    Except String HistData × GwState :=
  fetch_historical_data_with_fallbacks dl jit3 jit4 rand symbols period st

/-! ### Valuation engine: historical performance (`portfolioPerformance.py`)

Dates are modelled as integer day numbers; `pd.date_range(start, end, 'D')`
is the inclusive integer range.  The historical price table delivered by the
gateway is a parameter: a sorted list of rows (day, per-symbol closes)
together with its column set, and `index.asof` is the backward search for
the most recent row at or before the date. -/

/-- A ledger transaction as consumed by `get_portfolio_performance`. -/
inductive TxnType where
  | BUY
  | SELL
  deriving DecidableEq

/-- A ledger entry: `{symbol, type, shares, amount = shares*price, day}`. -/
structure PTxn where
  symbol : String
  ttype : TxnType
  shares : ℤ
  amount : ℚ
  day : ℤ
  deriving DecidableEq

/-- The historical close-price table: column names and date-indexed rows. -/
structure Hist where
  cols : List String
  rows : List (ℤ × List (String × ℚ))
  deriving DecidableEq

/-- `hist_data.index.asof(date)` then row selection: the last row whose day
is at or before `d`; `none` when the date precedes the first row (pandas
returns `NaN`, and the subsequent `.loc` raises `KeyError`, caught by the
`continue`). -/
def asofRow : List (ℤ × List (String × ℚ)) → ℤ → Option (List (String × ℚ))
  | [], _ => none
  | r :: t, d =>
    if r.1 ≤ d then
      match asofRow t d with
      | some row => some row
      | none => some r.2
    else none

/-- The cash back-out loop: reverse every BUY/SELL cash effect at or after
the first transaction date from the current cash balance. -/
def cash_at_period_start (txns : List PTxn) (current_cash : ℚ) (start : ℤ) : ℚ :=
  txns.foldl
    (fun c t =>
      if start ≤ t.day then
        match t.ttype with
        | .BUY => c + t.amount
        | .SELL => c - t.amount
      else c)
    current_cash

/-- Replay of the ledger up to (and including) day `d`: per-symbol share
counts in first-seen order, and the cash balance. -/
def holdings_and_cash_on (txns : List PTxn) (initial_cash : ℚ) (d : ℤ) :
    List (String × ℤ) × ℚ :=
  txns.foldl
    (fun acc t =>
      if t.day ≤ d then
        match t.ttype with
        | .BUY => (assocAdd acc.1 t.symbol t.shares, acc.2 - t.amount)
        | .SELL => (assocAdd acc.1 t.symbol (-t.shares), acc.2 + t.amount)
      else acc)
    ([], initial_cash)

/-- The value of the portfolio on day `d`: that day's cash balance plus
shares times the as-of close for every positively held symbol present in the
table. -/
def value_on_day (txns : List PTxn) (initial_cash : ℚ) (hist : Hist) (d : ℤ) : ℚ :=
  let hc := holdings_and_cash_on txns initial_cash d
  let stockVal :=
    hc.1.foldl
      (fun acc p =>
        if 0 < p.2 ∧ hist.cols.contains p.1 then
          match asofRow hist.rows d with
          | none => acc
          | some row =>
            match assocFind row p.1 with
            | some price => acc + (p.2 : ℚ) * price
            | none => acc
        else acc)
      0
  hc.2 + stockVal

/-- `pd.date_range(start, today, freq='D')` as integer days, inclusive. -/
def dayRange (start today : ℤ) : List ℤ :=
  if today < start then []
  else (List.range ((today - start).toNat + 1)).map (fun i => start + Int.ofNat i)

/-- The daily `portfolio_values` list (each value rounded to 2 decimals). -/
def performance_daily_values (txns : List PTxn) (initial_cash : ℚ)
    (hist : Hist) (start today : ℤ) : List ℚ :=
  (dayRange start today).map (fun d => roundTo2 (value_on_day txns initial_cash hist d))

/-- The chart formatting step (lines 89-101): more than 12 points are
stride-sampled with step `len // 12`, fewer are padded by repeating the last
value, exactly 12 pass through. -/
def format_chart (labels : List String) (values : List ℚ) :
    List String × List ℚ :=
  let out :=
    if 12 < labels.length then
      (strideSlice labels (labels.length / 12),
       strideSlice values (values.length / 12))
    else if labels.length < 12 then
      (labels ++ List.replicate (12 - labels.length) (labels.getLastD ("")),
       values ++ List.replicate (12 - values.length) (values.getLastD 0))
    else
      (labels.take 12, values.take 12)
  if out.1.length = 0 ∨ out.2.length = 0 then ([], []) else out

/-- `get_portfolio_performance()`: with the persisted ledger (ordered by
date), the current cash balance and the gateway's historical table as
inputs, reconstruct the daily value series from the first transaction's day
to today and format it for the chart.  Empty ledger or a future-dated first
transaction yields the empty series. -/
def get_portfolio_performance (txns : List PTxn) (current_cash : ℚ)
    (hist : Hist) (today : ℤ) : List String × List ℚ :=
  match txns with
  | [] => ([], [])
  | t0 :: _ =>
    let start := t0.day
    if today < start then ([], [])
    else
      let initial_cash := cash_at_period_start txns current_cash start
      let values := performance_daily_values txns initial_cash hist start today
      let labels := (dayRange start today).map (fun d => toString d)
      if values.isEmpty then ([], [])
      else format_chart labels values

/-! ### Ledger operations (`routes/transactions.py`)

The persistence collaborator is modelled as a session holding the last
committed database next to the current (uncommitted) one.  `commit` is
driven by a schedule saying whether the n-th commit of the request succeeds;
a failed commit raises `SQLAlchemyError`, after which the handler calls
`rollback`, discarding the uncommitted changes.  `commitLog` records every
successfully committed snapshot, in order, so that the order of commits
relative to mutations is observable. -/

/-- A `Stock` row. -/
structure StockRec where
  symbol : String
  name : String
  current_price : ℚ
  change_percent : ℚ
  deriving DecidableEq

/-- A `Holding` row. -/
structure HoldingRec where
  symbol : String
  shares : ℤ
  avg_price : ℚ
  deriving DecidableEq

/-- A `Transaction` row (the immutable ledger entry). -/
structure TxnRec where
  symbol : String
  transaction_type : TxnType
  shares : ℤ
  price : ℚ
  amount : ℚ
  deriving DecidableEq

/-- The persisted database: stocks, holdings, ledger, and the singleton
`Portfolio` cash balance (`none` models a missing portfolio row). -/
structure Db where
  stocks : List StockRec
  holdings : List HoldingRec
  transactions : List TxnRec
  portfolio : Option ℚ
  deriving DecidableEq

/-- The SQLAlchemy session: last committed state, current state, the log of
committed snapshots, and the index of the next commit in the schedule. -/
structure Sess where
  committed : Db
  current : Db
  commitLog : List Db
  commitIdx : Nat
  deriving DecidableEq

/-- `db.session.commit()`: per the schedule either persist the current state
or fail (raising `SQLAlchemyError`), in both cases consuming one schedule
slot. -/
def commit (sched : Nat → Bool) (s : Sess) : Bool × Sess :=
  if sched s.commitIdx then
    (true, ⟨s.current, s.current, s.commitLog ++ [s.current], s.commitIdx + 1⟩)
  else
    (false, ⟨s.committed, s.current, s.commitLog, s.commitIdx + 1⟩)

/-- `db.session.rollback()`: discard uncommitted changes. -/
def rollback (s : Sess) : Sess :=
  { s with current := s.committed }

/-- `Stock.query.get(symbol)` / `Holding.query.filter_by(symbol=...).first()`. -/
def findStock (stocks : List StockRec) (symbol : String) : Option StockRec :=
  stocks.find? (fun s => s.symbol = symbol)

/-- First holding with the given symbol. -/
def findHolding (holdings : List HoldingRec) (symbol : String) : Option HoldingRec :=
  holdings.find? (fun h => h.symbol = symbol)

/-- Update the first stock row with the given symbol in place. -/
def updateStock : List StockRec → String → (StockRec → StockRec) → List StockRec
  | [], _, _ => []
  | s :: t, symbol, f =>
    if s.symbol = symbol then f s :: t else s :: updateStock t symbol f

/-- Update the first holding row with the given symbol in place. -/
def updateHolding : List HoldingRec → String → (HoldingRec → HoldingRec) → List HoldingRec
  | [], _, _ => []
  | h :: t, symbol, f =>
    if h.symbol = symbol then f h :: t else h :: updateHolding t symbol f

/-- Delete the first holding row with the given symbol. -/
def removeHolding : List HoldingRec → String → List HoldingRec
  | [], _ => []
  | h :: t, symbol => if h.symbol = symbol then t else h :: removeHolding t symbol

/-- The stock upsert of `add_stock` (lines 100-141): an existing row is
refreshed with the API price and a change percentage against the old stored
price (0 when the old price is falsy or zero); a missing row is created with
change 0. -/
def upsert_stock (db : Db) (symbol name : String) (curr_price : ℚ) : Db :=
  match findStock db.stocks symbol with
  | some old =>
    let change :=
      if pyTruthy (some old.current_price) && decide (old.current_price ≠ 0) then
        ((curr_price - old.current_price) / old.current_price) * 100
      else 0
    { db with
        stocks := updateStock db.stocks symbol
          (fun s => { s with name := name, current_price := curr_price,
                             change_percent := change }) }
  | none =>
    { db with stocks := db.stocks ++ [⟨symbol, name, curr_price, 0⟩] }

/-- The holding upsert of `add_stock` (lines 167-192): an existing holding
gets the share count and weighted-average price update, a missing one is
created at the transaction price. -/
def apply_buy_holding (db : Db) (symbol : String) (shares_to_add : ℤ)
    (transaction_price : ℚ) : Db :=
  match findHolding db.holdings symbol with
  | some h =>
    let new_shares := h.shares + shares_to_add
    let new_total_cost :=
      (h.shares : ℚ) * h.avg_price + (shares_to_add : ℚ) * transaction_price
    let new_avg_price := if 0 < new_shares then new_total_cost / (new_shares : ℚ) else 0
    { db with
        holdings := updateHolding db.holdings symbol
          (fun h0 => { h0 with shares := new_shares, avg_price := new_avg_price }) }
  | none =>
    { db with holdings := db.holdings ++ [⟨symbol, shares_to_add, transaction_price⟩] }

/-- Append a ledger row (`db.session.add(transaction_record)`). -/
def add_txn (db : Db) (t : TxnRec) : Db :=
  { db with transactions := db.transactions ++ [t] }

/-- The summary dict returned by `_calculate_live_summary`. -/
structure Summary where
  totalPortfolioValue : ℚ
  totalGainLoss : ℚ
  cashBalance : ℚ
  totalHoldings : Nat
  deriving DecidableEq

/-- A route handler response: the success payload or an HTTP error code. -/
inductive ApiResp where
  | ok (summary : Summary)
  | err (code : Nat)
  deriving DecidableEq

/-- The valuation loop of `_calculate_live_summary`: total stock value and
total cost basis over the holdings, fetching a fresh price per symbol when
the gateway yields one (also writing it back to the stock row) and falling
back to the stored price otherwise.  Returns the two totals and the updated
stock rows. -/
def summary_fold (live : String → Option ℚ) :
    List HoldingRec → List StockRec → ℚ × ℚ × List StockRec
  | [], stocks => (0, 0, stocks)
  | h :: t, stocks =>
    match findStock stocks h.symbol with
    | none => summary_fold live t stocks
    | some stk =>
      let current_price :=
        match live h.symbol with
        | some p => p
        | none => stk.current_price
      let stocks2 :=
        match live h.symbol with
        | some p => updateStock stocks h.symbol (fun s => { s with current_price := p })
        | none => stocks
      let r := summary_fold live t stocks2
      ((h.shares : ℚ) * current_price + r.1, (h.shares : ℚ) * h.avg_price + r.2.1, r.2.2)

/-- `_calculate_live_summary()`: compute the live totals, commit the pending
session (price refreshes included), and build the summary from the current
cash balance.  The commit happens before the summary dict is built; a failed
commit raises out of the helper (`Except.error`). -/
def calculate_live_summary (live : String → Option ℚ) (sched : Nat → Bool)
    (s : Sess) : Except Unit Summary × Sess :=
  match s.current.portfolio with
  | none => (.ok ⟨0, 0, 0, 0⟩, s)
  | some cash =>
    let r := summary_fold live s.current.holdings s.current.stocks
    let s1 := { s with current := { s.current with stocks := r.2.2 } }
    let c := commit sched s1
    if c.1 then
      (.ok ⟨r.1 + cash, r.1 - r.2.1, cash, s.current.holdings.length⟩, c.2)
    else
      (.error (), c.2)

/-- `add_stock` (the BUY route handler), with validation already reduced to
its numeric form.  `info` is the result of the initial `fetch_stock_info`;
`live` is the per-symbol price fetch of `_calculate_live_summary`; `sched`
drives the commits.  Faithful ordering: stock upsert, cash check, holding
upsert, transaction row, live summary (which commits), cash debit, final
commit; `SQLAlchemyError`/exceptions roll back and return a 500. -/
def add_stock (info : Option Quote) (live : String → Option ℚ)
    (sched : Nat → Bool) (symbol : String) (shares_to_add : ℤ) (s : Sess) :
    ApiResp × Sess :=
  if symbol = "" then (.err 400, s)
  else if shares_to_add ≤ 0 then (.err 400, s)
  else
    match info with
    | none => (.err 404, s)
    | some q =>
      let curr_price := q.current_price
      let s1 := { s with current := upsert_stock s.current symbol q.name curr_price }
      match s1.current.portfolio with
      | none => (.err 404, s1)
      | some cash =>
        let transaction_price := curr_price
        let transaction_cost := (shares_to_add : ℚ) * transaction_price
        if cash < transaction_cost then (.err 400, s1)
        else
          let s2 := { s1 with
            current := apply_buy_holding s1.current symbol shares_to_add transaction_price }
          let s3 := { s2 with
            current := add_txn s2.current
              ⟨symbol, .BUY, shares_to_add, transaction_price, transaction_cost⟩ }
          let r := calculate_live_summary live sched s3
          match r.1 with
          | .error _ => (.err 500, rollback r.2)
          | .ok new_summary =>
            let s4 := r.2
            let s5 := { s4 with
              current := { s4.current with
                portfolio := s4.current.portfolio.map (fun c => c - transaction_cost) } }
            let c := commit sched s5
            if c.1 then (.ok new_summary, c.2) else (.err 500, rollback c.2)

/-- `sell_stock` (the SELL route handler).  Faithful ordering: holding and
portfolio lookups, share-count check, price fetch, stock-price write-back,
transaction row, holding decrement or deletion, cash credit, commit, then
the live summary (which commits again).  A missing stock row for the holding
raises (`AttributeError`), caught by the generic handler as a 500. -/
def sell_stock (info : Option ℚ) (live : String → Option ℚ)
    (sched : Nat → Bool) (symbol : String) (shares_to_sell : ℤ) (s : Sess) :
    ApiResp × Sess :=
  if symbol = "" then (.err 400, s)
  else if shares_to_sell ≤ 0 then (.err 400, s)
  else
    match findHolding s.current.holdings symbol with
    | none => (.err 404, s)
    | some holding_to_sell =>
      match s.current.portfolio with
      | none => (.err 404, s)
      | some _cash =>
        if holding_to_sell.shares < shares_to_sell then (.err 400, s)
        else
          match info with
          | none => (.err 404, s)
          | some price =>
            match findStock s.current.stocks symbol with
            | none => (.err 500, rollback s)
            | some _ =>
              let s1 := { s with
                current := { s.current with
                  stocks := updateStock s.current.stocks symbol
                    (fun stk => { stk with current_price := price }) } }
              let transaction_price := price
              let transaction_cost := (shares_to_sell : ℚ) * transaction_price
              let s2 := { s1 with
                current := add_txn s1.current
                  ⟨symbol, .SELL, shares_to_sell, transaction_price, transaction_cost⟩ }
              let s3 := { s2 with
                current := { s2.current with
                  holdings :=
                    if shares_to_sell = holding_to_sell.shares then
                      removeHolding s2.current.holdings symbol
                    else
                      updateHolding s2.current.holdings symbol
                        (fun h0 => { h0 with shares := h0.shares - shares_to_sell }) } }
              let s4 := { s3 with
                current := { s3.current with
                  portfolio := s3.current.portfolio.map (fun c => c + transaction_cost) } }
              let c := commit sched s4
              if c.1 = false then (.err 500, rollback c.2)
              else
                let r := calculate_live_summary live sched c.2
                match r.1 with
                | .error _ => (.err 500, rollback r.2)
                | .ok new_summary => (.ok new_summary, r.2)
/-! ### Helper lemmas -/

theorem assocFind_assocSet {α : Type} (l : List (String × α)) (k : String) (v : α) :
    assocFind (assocSet l k v) k = some v := by
  induction l with
  | nil => simp [assocFind, assocSet]
  | cons e t ih =>
    by_cases h : e.1 = k
    · simp [assocFind, assocSet, h]
    · simp [assocFind, assocSet, h, ih]

theorem upsert_stock_portfolio (db : Db) (symbol name : String) (p : ℚ) :
    (upsert_stock db symbol name p).portfolio = db.portfolio := by
  unfold upsert_stock
  cases findStock db.stocks symbol <;> rfl

theorem upsert_stock_holdings (db : Db) (symbol name : String) (p : ℚ) :
    (upsert_stock db symbol name p).holdings = db.holdings := by
  unfold upsert_stock
  cases findStock db.stocks symbol <;> rfl

theorem upsert_stock_transactions (db : Db) (symbol name : String) (p : ℚ) :
    (upsert_stock db symbol name p).transactions = db.transactions := by
  unfold upsert_stock
  cases findStock db.stocks symbol <;> rfl

theorem apply_buy_holding_portfolio (db : Db) (symbol : String) (sh : ℤ) (p : ℚ) :
    (apply_buy_holding db symbol sh p).portfolio = db.portfolio := by
  unfold apply_buy_holding
  cases findHolding db.holdings symbol <;> rfl

theorem apply_buy_holding_stocks (db : Db) (symbol : String) (sh : ℤ) (p : ℚ) :
    (apply_buy_holding db symbol sh p).stocks = db.stocks := by
  unfold apply_buy_holding
  cases findHolding db.holdings symbol <;> rfl

theorem apply_buy_holding_transactions (db : Db) (symbol : String) (sh : ℤ) (p : ℚ) :
    (apply_buy_holding db symbol sh p).transactions = db.transactions := by
  unfold apply_buy_holding
  cases findHolding db.holdings symbol <;> rfl

theorem findHolding_updateHolding (symbol : String) (f : HoldingRec → HoldingRec)
    (hf : ∀ h, (f h).symbol = h.symbol) (hs : List HoldingRec) :
    findHolding (updateHolding hs symbol f) symbol = (findHolding hs symbol).map f := by
  induction hs with
  | nil => simp [findHolding, updateHolding]
  | cons h t ih =>
    by_cases hh : h.symbol = symbol
    · simp [findHolding, updateHolding, hh, List.find?_cons_of_pos, hf]
    · simp only [updateHolding, if_neg hh, findHolding] at *
      rw [List.find?_cons_of_neg, List.find?_cons_of_neg] <;> simp [hh, ih]

theorem findHolding_removeHolding (symbol : String) (hs : List HoldingRec)
    (hnd : hs.Pairwise (fun a b => a.symbol ≠ b.symbol)) :
    findHolding (removeHolding hs symbol) symbol =
      if (findHolding hs symbol).isSome then none else findHolding hs symbol := by
  induction hs with
  | nil => simp [findHolding, removeHolding]
  | cons h t ih =>
    rw [List.pairwise_cons] at hnd
    by_cases hh : h.symbol = symbol
    · have hnone : findHolding t symbol = none := by
        unfold findHolding
        rw [List.find?_eq_none]
        intro x hx
        simp only [decide_eq_true_eq]
        intro hxs
        exact (hnd.1 x hx) (hh.trans hxs.symm)
      have hfind : findHolding (h :: t) symbol = some h := by
        unfold findHolding
        rw [List.find?_cons_of_pos]
        simp [hh]
      rw [show removeHolding (h :: t) symbol = t by simp [removeHolding, hh], hnone, hfind]
      simp
    · simp only [removeHolding, if_neg hh, findHolding] at *
      rw [List.find?_cons_of_neg, List.find?_cons_of_neg] <;>
        simp [hh, ih hnd.2]

theorem strideSlice_length {α : Type} (k : Nat) (hk : 1 ≤ k) :
    ∀ (n : Nat) (xs : List α), xs.length ≤ n →
      (strideSlice xs k).length = (xs.length + k - 1) / k := by
  intro n
  induction n with
  | zero =>
    intro xs hx
    have hxe : xs = [] := List.eq_nil_of_length_eq_zero (Nat.le_zero.mp hx)
    subst hxe
    simp [strideSlice, Nat.div_eq_of_lt (by omega : k - 1 < k)]
  | succ m ih =>
    intro xs hx
    cases xs with
    | nil => simp [strideSlice, Nat.div_eq_of_lt (by omega : k - 1 < k)]
    | cons x t =>
      rw [strideSlice]
      simp only [List.length_cons]
      have hdrop : (t.drop (k - 1)).length = t.length - (k - 1) := List.length_drop _ _
      have ihd := ih (t.drop (k - 1)) (by rw [hdrop]; simp only [List.length_cons] at hx; omega)
      rw [ihd, hdrop]
      rcases le_or_lt (k - 1) t.length with hle | hlt
      · have h1 : t.length - (k - 1) + k - 1 = t.length := by omega
        have h2 : t.length + 1 + k - 1 = t.length + k := by omega
        rw [h1, h2, Nat.add_div_right _ (by omega : 0 < k)]
      · have h1 : t.length - (k - 1) + k - 1 = k - 1 := by omega
        have h2 : t.length + 1 + k - 1 = t.length + k := by omega
        rw [h1, h2, Nat.add_div_right _ (by omega : 0 < k),
          Nat.div_eq_of_lt (by omega : k - 1 < k),
          Nat.div_eq_of_lt (by omega : t.length < k)]

theorem dayRange_length (start today : ℤ) (h : start ≤ today) :
    (dayRange start today).length = (today - start).toNat + 1 := by
  unfold dayRange
  rw [if_neg (not_lt.mpr h), List.length_map, List.length_range]

theorem performance_daily_values_length (txns : List PTxn) (c : ℚ) (hist : Hist)
    (start today : ℤ) (h : start ≤ today) :
    (performance_daily_values txns c hist start today).length = (today - start).toNat + 1 := by
  unfold performance_daily_values
  rw [List.length_map, dayRange_length _ _ h]

theorem calculate_live_summary_ok (live : String → Option ℚ) (sched : Nat → Bool)
    (s : Sess) (cash : ℚ) (hp : s.current.portfolio = some cash)
    (hc : sched s.commitIdx = true) :
    calculate_live_summary live sched s =
      (.ok ⟨(summary_fold live s.current.holdings s.current.stocks).1 + cash,
            (summary_fold live s.current.holdings s.current.stocks).1 -
              (summary_fold live s.current.holdings s.current.stocks).2.1,
            cash, s.current.holdings.length⟩,
       ⟨{ s.current with stocks := (summary_fold live s.current.holdings s.current.stocks).2.2 },
        { s.current with stocks := (summary_fold live s.current.holdings s.current.stocks).2.2 },
        s.commitLog ++ [{ s.current with stocks := (summary_fold live s.current.holdings s.current.stocks).2.2 }],
        s.commitIdx + 1⟩) := by
  unfold calculate_live_summary commit
  rw [hp]
  simp [hc]

theorem calculate_live_summary_fail (live : String → Option ℚ) (sched : Nat → Bool)
    (s : Sess) (cash : ℚ) (hp : s.current.portfolio = some cash)
    (hc : sched s.commitIdx = false) :
    calculate_live_summary live sched s =
      (.error (),
       ⟨s.committed,
        { s.current with stocks := (summary_fold live s.current.holdings s.current.stocks).2.2 },
        s.commitLog, s.commitIdx + 1⟩) := by
  unfold calculate_live_summary commit
  rw [hp]
  simp [hc]

theorem enforce_global_delay_now_ge (st : GwState) :
    st.now ≤ (enforce_global_delay st).now := by
  unfold enforce_global_delay MIN_SECONDS_BETWEEN_CALLS
  simp only
  split <;> linarith

theorem enforce_global_delay_spacing (st : GwState) :
    st.lastApiCall + MIN_SECONDS_BETWEEN_CALLS ≤ (enforce_global_delay st).now ∧
    (enforce_global_delay st).lastApiCall = (enforce_global_delay st).now := by
  refine ⟨?_, rfl⟩
  unfold enforce_global_delay MIN_SECONDS_BETWEEN_CALLS
  simp only
  split <;> linarith

theorem fetch_stock_info_hit (provider : String → Except String TickerInfo)
    (sj : ℚ) (symbol : String) (st : GwState) (q : Quote)
    (hhit : cache_lookup st symbol = some q) :
    fetch_stock_info provider sj symbol st = (some q, st) := by
  simp [fetch_stock_info, hhit]

/-- A SELL whose commit fails leaves both the committed and (after rollback)
the current database at the pre-operation state. -/
theorem sell_stock_commit_fail_rollback (p : ℚ) (live : String → Option ℚ)
    (sched : Nat → Bool) (symbol : String) (sh0 : ℤ) (avg0 : ℚ) (ssell : ℤ)
    (s : Sess) (cash : ℚ) (stk : StockRec)
    (hsym : ¬ symbol = "") (hpos : 0 < ssell)
    (hfind : findHolding s.current.holdings symbol = some ⟨symbol, sh0, avg0⟩)
    (hport : s.current.portfolio = some cash)
    (hle : ssell ≤ sh0)
    (hstock : findStock s.current.stocks symbol = some stk)
    (hfail : sched s.commitIdx = false) :
    sell_stock (some p) live sched symbol ssell s =
      (.err 500, ⟨s.committed, s.committed, s.commitLog, s.commitIdx + 1⟩) := by
  have hns : ¬ ssell ≤ 0 := by omega
  have hnlt : ¬ sh0 < ssell := by omega
  simp only [sell_stock, if_neg hsym, if_neg hns, hfind, hport, if_neg hnlt, hstock,
    commit, hfail, Bool.false_eq_true, if_false, rollback]
  simp

/-- A BUY whose final commit fails still has the Transaction row and the
Holding update in the committed state (persisted by the commit inside
`_calculate_live_summary`), while the cash debit is rolled back. -/
theorem add_stock_final_commit_fail_partial (q : Quote) (live : String → Option ℚ)
    (sched : Nat → Bool) (symbol : String) (sh : ℤ) (s : Sess) (cash : ℚ)
    (hsym : ¬ symbol = "") (hsh : 0 < sh)
    (hport : s.current.portfolio = some cash)
    (hcash : (sh : ℚ) * q.current_price ≤ cash)
    (hc0 : sched s.commitIdx = true)
    (hc1 : sched (s.commitIdx + 1) = false) :
    (add_stock (some q) live sched symbol sh s).1 = .err 500 ∧
    (add_stock (some q) live sched symbol sh s).2.committed.transactions =
      s.current.transactions ++
        [⟨symbol, .BUY, sh, q.current_price, (sh : ℚ) * q.current_price⟩] ∧
    (add_stock (some q) live sched symbol sh s).2.committed.portfolio = some cash ∧
    (add_stock (some q) live sched symbol sh s).2.current =
      (add_stock (some q) live sched symbol sh s).2.committed := by
  have hns : ¬ sh ≤ 0 := by omega
  simp only [add_stock, if_neg hsym, if_neg hns, upsert_stock_portfolio, hport,
    if_neg (not_lt.mpr hcash)]
  rw [calculate_live_summary_ok live sched _ cash
    (by simp [add_txn, apply_buy_holding_portfolio, upsert_stock_portfolio, hport])
    (by simpa using hc0)]
  simp only [commit, hc1, Bool.false_eq_true, if_false, rollback]
  simp [add_txn, apply_buy_holding_transactions, upsert_stock_transactions,
    apply_buy_holding_portfolio, upsert_stock_portfolio, hport]

/-! ### Fixtures: concrete oracles and states used by the closed theorems -/

/-- A provider for which every download yields an empty frame. -/
def dlEmpty : DlOracle := fun _ _ => .ok ⟨true, false, []⟩

/-- Fixed draws for the synthetic-data generator. -/
def mockRandUnit : MockRand := ⟨fun _ => 100, fun _ => 0, fun _ _ => 0⟩

/-- A gateway state well past the last API call. -/
def gw100 : GwState := ⟨100, 0, [], []⟩

/-- Constant per-symbol sleep draw of 2 seconds (inside `uniform(1, 2)`). -/
def jitTwo : Nat → ℚ := fun _ => 2

/-- A summary-time price fetch that always fails (stored prices are used). -/
def liveNone : String → Option ℚ := fun _ => none

/-- A commit schedule on which every commit succeeds. -/
def schedAll : Nat → Bool := fun _ => true

/-- A commit schedule on which only the first commit succeeds. -/
def schedFailSecond : Nat → Bool := fun i => i == 0

/-- A fetched quote for AAPL at price 10 (previous close 8). -/
def qA : Quote := ⟨"AAPL", "Apple", 10, some 8, 25, "USD", 0⟩

/-- A database with one stock row, no holdings, and 1000 of cash. -/
def db0 : Db := ⟨[⟨"AAPL", "Apple", 10, 0⟩], [], [], some 1000⟩

/-- A clean session over `db0`. -/
def sess0 : Sess := ⟨db0, db0, [], 0⟩

/-- A database holding 7 AAPL shares at average price 4, with 1000 of cash. -/
def dbS : Db := ⟨[⟨"AAPL", "Apple", 10, 0⟩], [⟨"AAPL", 7, 4⟩], [], some 1000⟩

/-- A clean session over `dbS`. -/
def sessS : Sess := ⟨dbS, dbS, [], 0⟩

/-- A provider that is rate-limited on every attempt. -/
def prov429 : String → Except String TickerInfo :=
  fun _ => .error ("HTTP Error 429: Too Many Requests")

/-- A healthy provider: current price 10, previous close 8. -/
def provA : String → Except String TickerInfo :=
  fun _ => .ok ⟨some 10, none, some 8, some ("Apple"), some ("USD"), some 0⟩

/-- A provider whose quote has current price 1 and previous close 3. -/
def provCex : String → Except String TickerInfo :=
  fun _ => .ok ⟨some 1, none, some 3, none, none, none⟩

/-- A provider whose quote has previous close exactly 0. -/
def provZero : String → Except String TickerInfo :=
  fun _ => .ok ⟨some 5, none, some 0, none, none, none⟩

/-- An empty historical table. -/
def histEmpty : Hist := ⟨[], []⟩

/-- One BUY of 1 share at price 10 on day 0. -/
def ptxA : PTxn := ⟨"A", .BUY, 1, 10, 0⟩

/-! ### Claims -/

/-- C1: the claim says `getHistoricalSeries` returns a non-empty table and
never raises, for every period, with the synthetic-data strategy as the
guaranteed last resort.  The code violates this for the default period
`1y` (the one `fetch_historical_data` actually uses): when every provider
strategy yields empty data, `generate_mock_data` computes
`int('1y'.replace('d','').replace('wk','7').replace('mo','30'))`, which
raises `ValueError`, and strategy 5 is not wrapped in a handler, so the
exception escapes to the caller.  This theorem evaluates the embedded
fallback chain at that failing input and shows the call raises. -/
theorem C1_historical_fallback_raises_on_unparsed_period :
    exceptIsError (fetch_historical_data_with_fallbacks dlEmpty jitTwo jitTwo
      mockRandUnit ["ZZZZ"] ("1y") gw100).1 = true := by
  norm_num +decide [fetch_historical_data_with_fallbacks, try_alternative_yahoo_endpoint,
    try_individual_downloads, try_individual_aux, generate_mock_data, generate_mock_aux,
    mock_prices, mock_num_points, enforce_global_delay, dlEmpty, mockRandUnit, gw100, jitTwo,
    tableIsEmpty, exceptIsError, pyReplace, pyInt, digitsToNat, replaceAux, isPrefixL,
    assocFind, base_prices, MIN_SECONDS_BETWEEN_CALLS]

/-- C2 counterexample: a BUY of 5 AAPL shares at price 10 against a clean
session whose second commit (the final one, after the cash debit) fails
returns a 500 but leaves the Transaction row and the new Holding committed
while the cash balance is still the pre-operation 1000: the rollback cannot
undo the commit that `_calculate_live_summary` already performed, so the
mutation is partially visible, contradicting the claimed atomicity. -/
theorem C2_buy_commit_failure_counterexample :
    (add_stock (some qA) liveNone schedFailSecond "AAPL" 5 sess0).1 = .err 500 ∧
    (add_stock (some qA) liveNone schedFailSecond "AAPL" 5 sess0).2.committed.transactions =
      [⟨"AAPL", .BUY, 5, 10, 50⟩] ∧
    (add_stock (some qA) liveNone schedFailSecond "AAPL" 5 sess0).2.committed.holdings =
      [⟨"AAPL", 5, 10⟩] ∧
    (add_stock (some qA) liveNone schedFailSecond "AAPL" 5 sess0).2.committed.portfolio =
      some 1000 := by
  norm_num +decide [add_stock, upsert_stock, findStock, apply_buy_holding, findHolding,
    add_txn, calculate_live_summary, summary_fold, commit, rollback, qA, db0, sess0,
    liveNone, schedFailSecond, updateStock, updateHolding]

/-- C2 (amended): a SELL whose commit fails is atomic — committed and
rolled-back current state equal the pre-operation state; a BUY whose final
commit fails is not — the Transaction row and Holding update were already
persisted by the commit inside `_calculate_live_summary`, and only the cash
debit is rolled back, so the committed cash balance is unchanged while the
ledger has grown. -/
theorem C2_ledger_atomicity_amended
    (p : ℚ) (live : String → Option ℚ) (sched : Nat → Bool)
    (symbol : String) (sh0 : ℤ) (avg0 : ℚ) (ssell : ℤ) (s : Sess) (cash : ℚ)
    (stk : StockRec)
    (q2 : Quote) (live2 : String → Option ℚ) (sched2 : Nat → Bool)
    (symbol2 : String) (sh2 : ℤ) (s2 : Sess) (cash2 : ℚ)
    (hsym : ¬ symbol = "") (hpos : 0 < ssell)
    (hfind : findHolding s.current.holdings symbol = some ⟨symbol, sh0, avg0⟩)
    (hport : s.current.portfolio = some cash)
    (hle : ssell ≤ sh0)
    (hstock : findStock s.current.stocks symbol = some stk)
    (hfail : sched s.commitIdx = false)
    (hsym2 : ¬ symbol2 = "") (hsh2 : 0 < sh2)
    (hport2 : s2.current.portfolio = some cash2)
    (hcash2 : (sh2 : ℚ) * q2.current_price ≤ cash2)
    (hc0 : sched2 s2.commitIdx = true)
    (hc1 : sched2 (s2.commitIdx + 1) = false) :
    (sell_stock (some p) live sched symbol ssell s =
      (.err 500, ⟨s.committed, s.committed, s.commitLog, s.commitIdx + 1⟩)) ∧
    ((add_stock (some q2) live2 sched2 symbol2 sh2 s2).1 = .err 500 ∧
     (add_stock (some q2) live2 sched2 symbol2 sh2 s2).2.committed.transactions =
       s2.current.transactions ++
         [⟨symbol2, .BUY, sh2, q2.current_price, (sh2 : ℚ) * q2.current_price⟩] ∧
     (add_stock (some q2) live2 sched2 symbol2 sh2 s2).2.committed.portfolio = some cash2 ∧
     (add_stock (some q2) live2 sched2 symbol2 sh2 s2).2.current =
       (add_stock (some q2) live2 sched2 symbol2 sh2 s2).2.committed) :=
  ⟨sell_stock_commit_fail_rollback p live sched symbol sh0 avg0 ssell s cash stk
      hsym hpos hfind hport hle hstock hfail,
   add_stock_final_commit_fail_partial q2 live2 sched2 symbol2 sh2 s2 cash2
      hsym2 hsh2 hport2 hcash2 hc0 hc1⟩

/-- C2 witness: concrete instantiation of the amended claim — a SELL of 3 of
7 held shares whose commit fails leaves everything at the pre-state, and the
BUY of the counterexample leaves the pre-operation cash committed. -/
theorem C2_ledger_atomicity_amended_witness :
    sell_stock (some 10) liveNone (fun _ => false) "AAPL" 3 sessS =
      (.err 500, ⟨dbS, dbS, [], 1⟩) ∧
    (add_stock (some qA) liveNone schedFailSecond "AAPL" 5 sess0).2.committed.portfolio =
      some 1000 := by
  have h := C2_ledger_atomicity_amended 10 liveNone (fun _ => false) "AAPL" 7 4 3 sessS 1000
    ⟨"AAPL", "Apple", 10, 0⟩ qA liveNone schedFailSecond "AAPL" 5 sess0 1000
    (by decide) (by decide)
    (by rfl) (by rfl) (by decide) (by rfl) (by rfl)
    (by decide) (by decide)
    (by rfl)
    (by norm_num [qA])
    (by rfl) (by rfl)
  refine ⟨?_, h.2.2.2.1⟩
  simpa [sessS] using h.1

/-- C3 counterexample: a ledger whose date range spans 13 days produces 13
output points, not 12 — the Python stride `values[::len(values)//12]` with
stride `13 // 12 = 1` keeps every element. -/
theorem C3_resample_counterexample :
    (get_portfolio_performance [ptxA] 100 histEmpty 12).2.length = 13 := by
  norm_num +decide [get_portfolio_performance, performance_daily_values, dayRange,
    value_on_day, holdings_and_cash_on, cash_at_period_start, assocAdd, asofRow,
    roundTo2, roundHalfEven, format_chart, strideSlice, histEmpty, ptxA,
    (show ((12 : ℤ)).toNat = 12 from rfl), List.range_succ, List.range_zero]

/-- C3 (amended): with `n` daily values (first transaction `n - 1` days in
the past), the chart series is padded by repeating the last value to exactly
12 points when `n < 12` and passed through unchanged when `n = 12`; but when
`n > 12` it is stride-sampled with step `n / 12`, yielding
`(n + n/12 - 1) / (n/12)` points — exactly 12 only for certain `n` (for
example 24), and all `n` points when `13 ≤ n ≤ 23`. -/
theorem C3_resample_amended (txns : List PTxn) (cash : ℚ) (hist : Hist) (today : ℤ)
    (t0 : PTxn) (rest : List PTxn)
    (h0 : txns = t0 :: rest) (hpast : t0.day ≤ today) :
    ((today - t0.day).toNat + 1 < 12 →
      (get_portfolio_performance txns cash hist today).2 =
        performance_daily_values txns (cash_at_period_start txns cash t0.day) hist t0.day today ++
          List.replicate (12 - ((today - t0.day).toNat + 1))
            ((performance_daily_values txns (cash_at_period_start txns cash t0.day) hist t0.day today).getLastD 0) ∧
      (get_portfolio_performance txns cash hist today).2.length = 12) ∧
    ((today - t0.day).toNat + 1 = 12 →
      (get_portfolio_performance txns cash hist today).2 =
        performance_daily_values txns (cash_at_period_start txns cash t0.day) hist t0.day today) ∧
    (12 < (today - t0.day).toNat + 1 →
      (get_portfolio_performance txns cash hist today).2.length =
        (((today - t0.day).toNat + 1) + ((today - t0.day).toNat + 1) / 12 - 1) /
          (((today - t0.day).toNat + 1) / 12)) := by
  subst h0
  have hn : ¬ today < t0.day := not_lt.mpr hpast
  have hlen : (performance_daily_values (t0 :: rest)
      (cash_at_period_start (t0 :: rest) cash t0.day) hist t0.day today).length =
      (today - t0.day).toNat + 1 :=
    performance_daily_values_length _ _ _ _ _ hpast
  have hlab : ((dayRange t0.day today).map (fun d => toString d)).length =
      (today - t0.day).toNat + 1 := by
    rw [List.length_map, dayRange_length _ _ hpast]
  have hne : (performance_daily_values (t0 :: rest)
      (cash_at_period_start (t0 :: rest) cash t0.day) hist t0.day today).isEmpty = false := by
    rw [List.isEmpty_eq_false_iff_exists_mem]
    rcases List.exists_mem_of_length_pos (by omega : 0 < (performance_daily_values (t0 :: rest)
      (cash_at_period_start (t0 :: rest) cash t0.day) hist t0.day today).length) with ⟨x, hx⟩
    exact ⟨x, hx⟩
  simp only [get_portfolio_performance, if_neg hn, hne, Bool.false_eq_true, if_false]
  unfold format_chart
  refine ⟨?_, ?_, ?_⟩
  · intro h12
    rw [if_neg (by omega : ¬ 12 < ((dayRange t0.day today).map (fun d => toString d)).length)]
    rw [if_pos (by omega : ((dayRange t0.day today).map (fun d => toString d)).length < 12)]
    rw [if_neg (by
      simp only [List.length_append, List.length_replicate]
      omega)]
    constructor
    · simp only [hlab, hlen]
    · simp only [List.length_append, List.length_replicate]
      omega
  · intro h12
    rw [if_neg (by omega : ¬ 12 < ((dayRange t0.day today).map (fun d => toString d)).length)]
    rw [if_neg (by omega : ¬ ((dayRange t0.day today).map (fun d => toString d)).length < 12)]
    rw [if_neg (by
      simp only [List.length_take]
      omega)]
    simp only
    rw [List.take_of_length_le (by omega)]
  · intro h12
    have hk : 1 ≤ ((today - t0.day).toNat + 1) / 12 :=
      (Nat.one_le_div_iff (by norm_num)).mpr (by omega)
    have hstrideV := strideSlice_length (((today - t0.day).toNat + 1) / 12) hk
      ((today - t0.day).toNat + 1)
      (performance_daily_values (t0 :: rest)
        (cash_at_period_start (t0 :: rest) cash t0.day) hist t0.day today)
      (by omega)
    have hstrideL := strideSlice_length (((today - t0.day).toNat + 1) / 12) hk
      ((today - t0.day).toNat + 1)
      ((dayRange t0.day today).map (fun d => toString d))
      (by omega)
    rw [hlen] at hstrideV
    rw [hlab] at hstrideL
    have hpos : 1 ≤ (((today - t0.day).toNat + 1) + ((today - t0.day).toNat + 1) / 12 - 1) /
        (((today - t0.day).toNat + 1) / 12) :=
      (Nat.one_le_div_iff (by omega)).mpr (by omega)
    rw [if_pos (by omega : 12 < ((dayRange t0.day today).map (fun d => toString d)).length)]
    rw [hlen, hlab]
    rw [if_neg (by
      rw [hstrideV, hstrideL]
      omega)]
    simp only
    rw [hstrideV]

/-- C3 witness: a performance series with 5 raw days maps to exactly 12
output points. -/
theorem C3_resample_amended_witness :
    (get_portfolio_performance [ptxA] 100 histEmpty 4).2.length = 12 := by
  have h := C3_resample_amended [ptxA] 100 histEmpty 4 ptxA [] rfl
    (by norm_num [ptxA])
  exact (h.1 (by norm_num [ptxA, (show ((4 : ℤ)).toNat = 4 from rfl)])).2

/-- C4 counterexample: with a provider that is rate-limited on every
attempt, the decorated `fetch_stock_info` makes exactly one attempt, sleeps
no backoff delay, and returns `None` after one outbound call — its internal
`try/except` swallows the 429 before `retry_with_backoff` can see it, so no
retry ever happens. -/
theorem C4_retry_counterexample :
    fetch_stock_info_wrapped prov429 (fun _ => 1) (fun _ => 1) "ZZZZ" ⟨0, 0, [], []⟩ =
      ⟨.ok (some (none, ⟨4, 3, [], [4]⟩)), 1, []⟩ := by
  norm_num +decide [fetch_stock_info_wrapped, retry_with_backoff, retryAux, MAX_RETRIES,
    fetch_stock_info, cache_lookup, assocFind, enforce_global_delay,
    MIN_SECONDS_BETWEEN_CALLS, prov429]

/-- C4 (amended): the decorated `fetch_stock_info` always returns after a
single attempt with no backoff (its body catches every exception and
returns `None`); the `retry_with_backoff` combinator itself, applied to a
call that raises a 429 every time, makes 3 attempts with backoff delays
`BASE_DELAY * 2^k + jitter` for `k = 1, 2` and then re-raises the error
rather than returning null. -/
theorem C4_retry_amended (α : Type) (msg : String) (jit : Nat → ℚ)
    (provider : String → Except String TickerInfo) (sleepJ jit2 : Nat → ℚ)
    (symbol : String) (st : GwState)
    (h429 : contains429 msg = true) :
    fetch_stock_info_wrapped provider sleepJ jit2 symbol st =
      ⟨.ok (some (fetch_stock_info provider (sleepJ 0) symbol st)), 1, []⟩ ∧
    retry_with_backoff (fun _ => (Except.error msg : Except String α)) jit =
      ⟨.error msg, 3, [BASE_DELAY * 2 ^ 1 + jit 0, BASE_DELAY * 2 ^ 2 + jit 1]⟩ := by
  constructor
  · simp [fetch_stock_info_wrapped, retry_with_backoff, retryAux, MAX_RETRIES]
  · simp [retry_with_backoff, retryAux, MAX_RETRIES, h429]

/-- C4 witness: the raw combinator on an always-429 call makes 3 attempts
with delays 10 and 20 (zero jitter) and re-raises. -/
theorem C4_retry_amended_witness :
    retry_with_backoff (fun _ => (Except.error ("429") : Except String Nat)) (fun _ => 0) =
      ⟨.error ("429"), 3, [10, 20]⟩ := by
  have h := (C4_retry_amended Nat ("429") (fun _ => 0) provA (fun _ => 1) (fun _ => 1)
    "AAPL" gw100 (by decide)).2
  norm_num [BASE_DELAY] at h
  exact h

/-- C5 counterexample: one `fetch_historical_data_with_fallbacks` call whose
provider keeps returning empty frames issues outbound calls at times
100, 100, 102, 104 — the alternative-endpoint attempt follows the batch
attempt immediately (gap 0 < 3), and the per-symbol attempts are spaced by
the 1-2 second sleep, so outbound calls are not 3 seconds apart. -/
theorem C5_global_delay_counterexample :
    (fetch_historical_data_with_fallbacks dlEmpty jitTwo jitTwo mockRandUnit
      ["ZZZZ"] ("1d") gw100).2.calls = [100, 100, 102, 104] ∧
    (100 : ℚ) - 100 < MIN_SECONDS_BETWEEN_CALLS := by
  constructor
  · norm_num +decide [fetch_historical_data_with_fallbacks, try_alternative_yahoo_endpoint,
      try_individual_downloads, try_individual_aux, generate_mock_data, generate_mock_aux,
      mock_prices, mock_num_points, enforce_global_delay, dlEmpty, mockRandUnit, gw100, jitTwo,
      tableIsEmpty, exceptIsError, pyReplace, pyInt, digitsToNat, replaceAux, isPrefixL,
      assocFind, base_prices, MIN_SECONDS_BETWEEN_CALLS]
  · norm_num [MIN_SECONDS_BETWEEN_CALLS]

/-- C5 (amended): only the call points gated by `enforce_global_delay` are
guaranteed 3 seconds after the recorded last API call (and the gate updates
that shared timestamp); the per-symbol fallback downloads inside one
`getHistoricalSeries` are spaced only by their 1-2 second random sleeps, so
consecutive outbound calls there are strictly less than 3 seconds apart. -/
theorem C5_global_delay_amended (dl : DlOracle) (jit : Nat → ℚ) (s1 s2 period : String)
    (stG stI : GwState)
    (hj0 : 1 ≤ jit 0) (hj0' : jit 0 ≤ 2) (hj1 : 1 ≤ jit 1) (hj1' : jit 1 ≤ 2) :
    stG.lastApiCall + MIN_SECONDS_BETWEEN_CALLS ≤ (enforce_global_delay stG).now ∧
    (try_individual_downloads dl jit [s1, s2] period stI).2.calls =
      stI.calls ++ [stI.now + jit 0, stI.now + jit 0 + jit 1] ∧
    (stI.now + jit 0 + jit 1) - (stI.now + jit 0) < MIN_SECONDS_BETWEEN_CALLS := by
  refine ⟨(enforce_global_delay_spacing stG).1, ?_, ?_⟩
  · simp [try_individual_downloads, try_individual_aux]
  · unfold MIN_SECONDS_BETWEEN_CALLS
    linarith

/-- C5 witness: two per-symbol downloads with 1.5-second sleeps are
recorded 1.5 seconds apart. -/
theorem C5_global_delay_amended_witness :
    (try_individual_downloads dlEmpty (fun _ => 3 / 2) ["A", "B"] ("1d")
      ⟨0, 0, [], []⟩).2.calls = [3 / 2, 3] := by
  have h := (C5_global_delay_amended dlEmpty (fun _ => 3 / 2) "A" "B" ("1d") gw100
    ⟨0, 0, [], []⟩ (by norm_num) (by norm_num) (by norm_num) (by norm_num)).2.1
  norm_num at h
  exact h

/-- C6: two `fetch_stock_info` calls for the same symbol, the first a cache
miss that succeeds against the provider and the second issued within the
300-second TTL window of the first, return the identical quote and trigger
exactly one outbound provider call in total: the first call records its
quote in the cache keyed by the symbol with its store timestamp and appends
exactly one outbound call, and the second call is answered from the cache
without touching the provider or the state. -/
theorem C6_cache_within_ttl (provider : String → Except String TickerInfo)
    (sj1 sj2 Δ : ℚ) (symbol : String) (st st1 : GwState) (q : Quote)
    (hmiss : cache_lookup st symbol = none)
    (hs : 0 ≤ sj1)
    (h1 : fetch_stock_info provider sj1 symbol st = (some q, st1))
    (hΔ : 0 ≤ Δ)
    (hwin : st1.now + Δ - st.now < CACHE_TIMEOUT_SECONDS) :
    assocFind st1.cache symbol = some ⟨q, st1.now⟩ ∧
    st1.calls = st.calls ++ [st1.now] ∧
    fetch_stock_info provider sj2 symbol { st1 with now := st1.now + Δ } =
      (some q, { st1 with now := st1.now + Δ }) := by
  have hmono : st.now ≤ (enforce_global_delay st).now := enforce_global_delay_now_ge st
  simp only [fetch_stock_info, hmiss] at h1
  cases hp : provider symbol with
  | error e =>
    rw [hp] at h1
    simp at h1
  | ok info =>
    rw [hp] at h1
    dsimp only at h1
    by_cases hcp : pyTruthy (pyOr (pyOr info.currentPrice info.regularMarketPrice) info.previousClose) = false
    · rw [if_pos hcp] at h1
      simp at h1
    · rw [if_neg hcp] at h1
      simp only [Prod.mk.injEq, Option.some.injEq] at h1
      obtain ⟨hq, hst⟩ := h1
      subst hq
      subst hst
      dsimp only at hwin
      refine ⟨assocFind_assocSet _ _ _, rfl, ?_⟩
      apply fetch_stock_info_hit
      unfold cache_lookup
      rw [assocFind_assocSet]
      dsimp only
      rw [if_pos (show (enforce_global_delay st).now + sj1 + Δ -
          ((enforce_global_delay st).now + sj1) < CACHE_TIMEOUT_SECONDS by
        unfold CACHE_TIMEOUT_SECONDS at hwin ⊢
        linarith)]

/-- C6 witness: after a successful fetch of AAPL at time 100 (stored in the
cache at time 101), a second call 50 seconds later returns the identical
quote with no state change and no new outbound call. -/
theorem C6_cache_within_ttl_witness :
    fetch_stock_info provA 1 "AAPL" ⟨151, 100, [("AAPL", ⟨qA, 101⟩)], [101]⟩ =
      (some qA, ⟨151, 100, [("AAPL", ⟨qA, 101⟩)], [101]⟩) := by
  have h := (C6_cache_within_ttl provA 1 1 50 "AAPL" gw100
    ⟨101, 100, [("AAPL", ⟨qA, 101⟩)], [101]⟩ qA
    (by rfl)
    (by norm_num)
    (by norm_num +decide [fetch_stock_info, cache_lookup, assocFind, assocSet,
      enforce_global_delay, MIN_SECONDS_BETWEEN_CALLS, provA, gw100, pyOr, pyTruthy,
      roundTo2, roundHalfEven, pyUpper, upChar, qA])
    (by norm_num)
    (by norm_num [gw100, CACHE_TIMEOUT_SECONDS])).2.2
  norm_num at h
  exact h

/-- C7: after a BUY of `s2` shares at the fetched price `p2` is added to an
existing holding of `s1` shares at average price `avg1` (both positive,
sufficient cash, commits succeeding), the holding has `s1 + s2` shares and
average price `(s1*avg1 + s2*p2) / (s1 + s2)`. -/
theorem C7_average_cost (q : Quote) (live : String → Option ℚ) (sched : Nat → Bool)
    (symbol : String) (s1 : ℤ) (avg1 : ℚ) (s2 : ℤ) (s : Sess) (cash : ℚ)
    (hsym : ¬ symbol = "")
    (hs1 : 0 < s1) (hs2 : 0 < s2)
    (hport : s.current.portfolio = some cash)
    (hfind : findHolding s.current.holdings symbol = some ⟨symbol, s1, avg1⟩)
    (hcash : (s2 : ℚ) * q.current_price ≤ cash)
    (hsched : ∀ i, sched i = true) :
    findHolding (add_stock (some q) live sched symbol s2 s).2.current.holdings symbol =
      some ⟨symbol, s1 + s2,
        ((s1 : ℚ) * avg1 + (s2 : ℚ) * q.current_price) / ((s1 : ℚ) + (s2 : ℚ))⟩ := by
  have hns : ¬ s2 ≤ 0 := by omega
  simp only [add_stock, if_neg hsym, if_neg hns, upsert_stock_portfolio, hport,
    if_neg (not_lt.mpr hcash)]
  rw [calculate_live_summary_ok live sched _ cash
    (by simp [add_txn, apply_buy_holding_portfolio, upsert_stock_portfolio, hport])
    (hsched _)]
  simp only [hsched, if_pos, if_true, commit]
  simp only [add_txn, apply_buy_holding, upsert_stock_holdings, hfind]
  rw [findHolding_updateHolding symbol
    (fun h0 => HoldingRec.mk h0.symbol (s1 + s2)
      (if 0 < s1 + s2 then
        ((s1 : ℚ) * avg1 + (s2 : ℚ) * q.current_price) / ((s1 + s2 : ℤ) : ℚ) else 0))
    (fun h => rfl)]
  rw [hfind]
  have hpos : (0 : ℤ) < s1 + s2 := by omega
  simp only [Option.map_some', if_pos hpos, Option.some.injEq]
  have hcast : ((s1 + s2 : ℤ) : ℚ) = (s1 : ℚ) + (s2 : ℚ) := by push_cast; ring
  rw [hcast]

/-- C7 witness: buying 5 shares at price 10 into a holding of 7 shares at
average 4 yields 12 shares at average (7*4 + 5*10) / 12 = 13/2. -/
theorem C7_average_cost_witness :
    findHolding (add_stock (some qA) liveNone schedAll "AAPL" 5 sessS).2.current.holdings
      "AAPL" = some ⟨"AAPL", 12, 13 / 2⟩ := by
  have h := C7_average_cost qA liveNone schedAll "AAPL" 7 4 5 sessS 1000
    (by decide) (by decide) (by decide) (by rfl) (by rfl)
    (by norm_num [qA]) (fun _ => rfl)
  norm_num [qA] at h
  exact h

/-- C8 counterexample: for a provider quote with current price 1 and
previous close 3, the returned `change_percent` is the rounded -66.67, not
the exact `(1 - 3) / 3 * 100 = -200/3` the claim states — the code stores
`round(change_percent, 2)`. -/
theorem C8_change_percent_counterexample :
    ((fetch_stock_info provCex 1 "AAPL" gw100).1.map (fun qq => qq.change_percent)) =
      some (-6667 / 100) ∧
    ¬ ((-6667 : ℚ) / 100 = ((1 - 3) / 3) * 100) := by
  constructor
  · norm_num +decide [fetch_stock_info, cache_lookup, assocFind, enforce_global_delay,
      MIN_SECONDS_BETWEEN_CALLS, provCex, gw100, pyOr, pyTruthy, roundTo2, roundHalfEven,
      pyUpper, upChar]
  · norm_num

/-- C8 (amended): for every quote built from a fresh provider response, if
the previous close is absent or zero the stored `change_percent` is 0 (the
division is never evaluated), and otherwise it equals
`(current_price - previous_close) / previous_close * 100` rounded
half-to-even to two decimal places. -/
theorem C8_change_percent_amended (provider : String → Except String TickerInfo) (sj : ℚ)
    (symbol : String) (st st1 : GwState) (q : Quote) (info : TickerInfo)
    (hmiss : cache_lookup st symbol = none)
    (hprov : provider symbol = .ok info)
    (h1 : fetch_stock_info provider sj symbol st = (some q, st1)) :
    (pyTruthy q.previous_close = false → q.change_percent = 0) ∧
    (pyTruthy q.previous_close = true →
      q.change_percent =
        roundTo2 (((q.current_price - q.previous_close.getD 0) /
          q.previous_close.getD 0) * 100)) := by
  simp only [fetch_stock_info, hmiss, hprov] at h1
  by_cases hcp : pyTruthy (pyOr (pyOr info.currentPrice info.regularMarketPrice) info.previousClose) = false
  · rw [if_pos hcp] at h1
    simp at h1
  · rw [if_neg hcp] at h1
    simp only [Prod.mk.injEq, Option.some.injEq] at h1
    obtain ⟨hq, hst⟩ := h1
    subst hq
    have hcp' : pyTruthy (pyOr (pyOr info.currentPrice info.regularMarketPrice) info.previousClose) = true := by
      revert hcp
      cases pyTruthy (pyOr (pyOr info.currentPrice info.regularMarketPrice) info.previousClose) <;> simp
    constructor
    · intro hpc
      dsimp only at hpc ⊢
      rw [hpc]
      simp only [Bool.and_false, Bool.false_eq_true, if_false]
      unfold roundTo2 roundHalfEven
      norm_num
    · intro hpc
      dsimp only at hpc ⊢
      rw [hcp', hpc]
      simp

/-- C8 witness: with a previous close of exactly 0 the returned quote has
`change_percent = 0`. -/
theorem C8_change_percent_amended_witness :
    pyTruthy (some (0 : ℚ)) = false ∧
    ((⟨"AAPL", "AAPL", 5, some 0, 0, "USD", 0⟩ : Quote)).change_percent = 0 := by
  have h1 : fetch_stock_info provZero 1 "AAPL" gw100 =
      (some ⟨"AAPL", "AAPL", 5, some 0, 0, "USD", 0⟩,
       ⟨101, 100, [("AAPL", ⟨⟨"AAPL", "AAPL", 5, some 0, 0, "USD", 0⟩, 101⟩)], [101]⟩) := by
    norm_num +decide [fetch_stock_info, cache_lookup, assocFind, assocSet,
      enforce_global_delay, MIN_SECONDS_BETWEEN_CALLS, provZero, gw100, pyOr, pyTruthy,
      roundTo2, roundHalfEven, pyUpper, upChar]
  exact ⟨by norm_num [pyTruthy],
    (C8_change_percent_amended provZero 1 "AAPL" gw100 _ _ _
      (by rfl) (by rfl) h1).1 (by norm_num [pyTruthy])⟩

/-- C9: a SELL of `ssell` shares from a holding of `sh0 ≥ ssell` shares
leaves the average price untouched and decreases the share count by exactly
`ssell`; the holding row is deleted exactly when the count reaches zero. -/
theorem C9_sell_frame (p : ℚ) (live : String → Option ℚ) (sched : Nat → Bool)
    (symbol : String) (sh0 : ℤ) (avg0 : ℚ) (ssell : ℤ) (s : Sess) (cash : ℚ)
    (stk : StockRec)
    (hsym : ¬ symbol = "") (hpos : 0 < ssell)
    (hfind : findHolding s.current.holdings symbol = some ⟨symbol, sh0, avg0⟩)
    (hnd : s.current.holdings.Pairwise (fun a b => a.symbol ≠ b.symbol))
    (hport : s.current.portfolio = some cash)
    (hle : ssell ≤ sh0)
    (hstock : findStock s.current.stocks symbol = some stk)
    (hsched : ∀ i, sched i = true) :
    findHolding (sell_stock (some p) live sched symbol ssell s).2.current.holdings symbol =
      (if sh0 - ssell = 0 then none else some ⟨symbol, sh0 - ssell, avg0⟩) := by
  have hns : ¬ ssell ≤ 0 := by omega
  have hnlt : ¬ sh0 < ssell := by omega
  simp only [sell_stock, if_neg hsym, if_neg hns, hfind, hport, if_neg hnlt, hstock]
  simp only [commit, hsched, if_true, Bool.true_eq_false, if_false, add_txn, Option.map_some']
  rw [calculate_live_summary_ok live sched _ (cash + (ssell : ℚ) * p) (by simp) (hsched _)]
  simp only
  by_cases hcase : ssell = sh0
  · rw [if_pos hcase, findHolding_removeHolding _ _ hnd, hfind,
      if_pos (by omega : sh0 - ssell = 0)]
    simp
  · rw [if_neg hcase,
      findHolding_updateHolding symbol
        (fun h0 => HoldingRec.mk h0.symbol (h0.shares - ssell) h0.avg_price)
        (fun h => rfl),
      hfind, if_neg (by omega : ¬ sh0 - ssell = 0)]
    simp

/-- C9 witness: selling all 7 of 7 held shares deletes the holding row. -/
theorem C9_sell_frame_witness :
    findHolding (sell_stock (some 10) liveNone schedAll "AAPL" 7 sessS).2.current.holdings
      "AAPL" = none := by
  have h := C9_sell_frame 10 liveNone schedAll "AAPL" 7 4 7 sessS 1000
    ⟨"AAPL", "Apple", 10, 0⟩
    (by decide) (by decide) (by rfl) (by simp [sessS, dbS]) (by rfl) (by decide)
    (by rfl) (fun _ => rfl)
  norm_num at h
  exact h

/-- C10: on every successful BUY the response summary is computed from the
post-purchase holdings but the pre-purchase cash: `cashBalance` is the
undebited balance and `totalPortfolioValue` counts the just-bought shares
plus that undebited cash; the commit log shows the first (summary) commit
persisting the undebited cash and only the second commit persisting the
debit. -/
theorem C10_summary_before_debit (q : Quote) (live : String → Option ℚ)
    (sched : Nat → Bool) (symbol : String) (sh : ℤ) (s : Sess) (cash : ℚ)
    (hsym : ¬ symbol = "") (hsh : 0 < sh)
    (hport : s.current.portfolio = some cash)
    (hcash : (sh : ℚ) * q.current_price ≤ cash)
    (hc0 : sched s.commitIdx = true)
    (hc1 : sched (s.commitIdx + 1) = true) :
    let dbA := add_txn
      (apply_buy_holding (upsert_stock s.current symbol q.name q.current_price)
        symbol sh q.current_price)
      ⟨symbol, .BUY, sh, q.current_price, (sh : ℚ) * q.current_price⟩
    let r := summary_fold live dbA.holdings dbA.stocks
    (add_stock (some q) live sched symbol sh s).1 =
      .ok ⟨r.1 + cash, r.1 - r.2.1, cash, dbA.holdings.length⟩ ∧
    (add_stock (some q) live sched symbol sh s).2.commitLog =
      s.commitLog ++
        [{ dbA with stocks := r.2.2 },
         { dbA with stocks := r.2.2,
                    portfolio := some (cash - (sh : ℚ) * q.current_price) }] ∧
    (add_stock (some q) live sched symbol sh s).2.committed =
      { dbA with stocks := r.2.2,
                 portfolio := some (cash - (sh : ℚ) * q.current_price) } := by
  intro dbA r
  have hns : ¬ sh ≤ 0 := by omega
  simp only [add_stock, if_neg hsym, if_neg hns, upsert_stock_portfolio, hport,
    if_neg (not_lt.mpr hcash)]
  rw [calculate_live_summary_ok live sched _ cash
    (by simp [add_txn, apply_buy_holding_portfolio, upsert_stock_portfolio, hport])
    (by simpa using hc0)]
  simp only [commit, hc1, if_true, rollback]
  simp only [dbA, r, add_txn, apply_buy_holding_portfolio, upsert_stock_portfolio, hport]
  simp

/-- C10 witness: buying 5 shares of AAPL at 10 with cash 1000 returns the
summary ⟨1050, 0, 1000, 1⟩ — the cash balance shown is the undebited 1000
and the total value 5*10 + 1000 counts the new shares plus undebited cash. -/
theorem C10_summary_before_debit_witness :
    (add_stock (some qA) liveNone schedAll "AAPL" 5 sess0).1 = .ok ⟨1050, 0, 1000, 1⟩ := by
  have h := C10_summary_before_debit qA liveNone schedAll "AAPL" 5 sess0 1000
    (by decide) (by decide) (by rfl) (by norm_num [qA]) (by rfl) (by rfl)
  norm_num [qA, sess0, db0, liveNone, add_txn, apply_buy_holding, upsert_stock, findStock,
    findHolding, summary_fold, updateStock, updateHolding] at h
  exact h.1
